import Mathlib

/-!
Verification of the credential issuance `Controller` (src/src/issuer/mod.rs)
of the solid-adventure repository: a shallow embedding of the orchestrator
that binds a Key Event Log (KEL) and a Transaction Event Log (TEL) through
mutual anchoring, together with theorems about its operations.

The `Controller` code itself is translated directly from the source.  The
KEL engine (`crate::kerl::KERL`), the TEL engine (`crate::tel::Tel`) and the
digest/signature primitives are external collaborators (or repository code
not present under src/); they are modelled from the spec, as marked on each
definition.
-/

namespace VCIssuer

/-- Raw bytes, as used for messages, serializations and signatures. -/
abbrev Bytes := List Nat

/-- Modelled from the spec: content-addressing digest (Blake3-256 in the
source).  The digest is an opaque wrapper of the input bytes, reflecting
the spec's treatment of the primitive as an injective content address. -/
structure Digest where
  bytes : Bytes
deriving DecidableEq

/-- Modelled from the spec: `SelfAddressing::Blake3_256.derive`. -/
def blake3 (b : Bytes) : Digest := ⟨b⟩

/-- Identifier (keri `IdentifierPrefix`): key-derived or digest-derived. -/
inductive Ident
  | basic (k : Nat)
  | selfAddr (d : Digest)
deriving DecidableEq

/-- keri `EventSeal` `{prefix, sn, event_digest}`: the seal wrapping a TEL
event, inserted into a KEL interaction event. -/
structure EvSeal where
  pre : Ident
  sn : Nat
  eventDigest : Digest
deriving DecidableEq

/-- teliox `EventSourceSeal` `{sn, digest}`: references the KEL interaction
event that anchors a TEL event. -/
structure SourceSeal where
  sn : Nat
  digest : Digest
deriving DecidableEq

/-- A KEL event: inception, rotation or interaction (seal anchoring).
Modelled from the spec: the KEL engine's event kinds, each carrying only
what the Controller depends on (current public keys, anchored seals). -/
inductive KelEvent
  | icp (keys : List Nat)
  | rot (keys : List Nat)
  | ixn (seals : List EvSeal)
deriving DecidableEq

/-- keri `SignedEventMessage` for an interaction event: the event message
(sequence number and seals) together with the attached signature bytes. -/
structure SignedIxn where
  sn : Nat
  seals : List EvSeal
  sig : Bytes
deriving DecidableEq

/-- teliox management-event `Config` option. -/
inductive Cfg
  | noBackers
deriving DecidableEq

/-- A TEL event kind: management inception (vcp), management backer
rotation (vrt), credential issuance (iss), credential revocation (rev).
Modelled from the spec: tagged union of management and credential events. -/
inductive TelKind
  | vcp (issuer : Ident) (config : List Cfg) (threshold : Nat) (backers : List Ident)
  | vrt (ba br : List Ident)
  | iss
  | rev
deriving DecidableEq

/-- A TEL event: its identifier (registry id for management events, the
credential digest for iss/rev events), sequence number and kind. -/
structure TelEvent where
  pre : Ident
  sn : Nat
  kind : TelKind
deriving DecidableEq

/-- teliox `VerifiableEvent`: a TEL event paired with the source seal of
the KEL interaction event anchoring it (the source stores it as
`seal.seal`, an attached source seal wrapping the `EventSourceSeal`). -/
structure VEvent where
  event : TelEvent
  srcSeal : SourceSeal
deriving DecidableEq

/-- teliox `TelState`: per-credential state machine. -/
inductive TelState
  | notIssued
  | issued (d : Digest)
  | revoked
deriving DecidableEq

/-- Error kinds surfaced by the Controller (src uses `Error::Generic` with
distinguishing strings; the spec names them in section 7). -/
inductive Err
  | anchorFailed
  | kelError
  | telError
  | invalidTransition
  | noSuchCredential
  | noKeyData
  | notYetIssued
  | revoked
deriving DecidableEq

/-- Modelled from the spec: key manager (external signing provider); holds
the currently active key. -/
structure KeyMgr where
  curKey : Nat
deriving DecidableEq

/-- Modelled from the spec: `KeyManager::sign`.  A well-formed signature
encodes the signing key and the signed message behind tag 0. -/
def kmSign (km : KeyMgr) (msg : Bytes) : Bytes := 0 :: km.curKey :: msg

/-- Modelled from the spec: the external per-key signature verification
primitive (`BasicPrefix::verify`).  It rejects malformed signature bytes
with an error, and otherwise reports whether the signature binds this key
to this message. -/
def primVerify (k : Nat) (msg : Bytes) (sig : Bytes) : Except Unit Bool :=
  match sig with
  | 0 :: kk :: rest => .ok (kk == k && rest == msg)
  | _ => .error ()

/-- Signature bytes the verification primitive accepts (does not reject as
malformed). -/
def wellFormedSig (sig : Bytes) : Bool :=
  match sig with
  | 0 :: _ :: _ => true
  | _ => false

/-- Whether well-formed signature bytes validate key `k` on `msg`. -/
def sigOkFor (k : Nat) (msg : Bytes) (sig : Bytes) : Bool :=
  match sig with
  | 0 :: kk :: rest => kk == k && rest == msg
  | _ => false

/-- Serialization of a KEL event message (sequence number included), used
for content-addressing KEL events.  Modelled from the spec: the KEL engine
serializes events for digest derivation. -/
def serializeKelEvent (sn : Nat) : KelEvent → Bytes
  | .icp ks => 0 :: sn :: ks
  | .rot ks => 1 :: sn :: ks
  | .ixn seals => 2 :: sn :: (seals.foldr (fun s acc =>
      (match s.pre with
       | .basic k => [0, k]
       | .selfAddr d => 1 :: d.bytes) ++ s.sn :: s.eventDigest.bytes ++ acc) [])

/-- `ixn.event_message.serialize()`: serialization of the interaction
event message alone. -/
def serializeIxnMsg (x : SignedIxn) : Bytes :=
  serializeKelEvent x.sn (.ixn x.seals)

/-- `ixn.serialize()`: serialization of the signed interaction event — the
event message followed by the attached signatures (keri
`SignedEventMessage::serialize`). -/
def serializeSignedIxn (x : SignedIxn) : Bytes :=
  serializeIxnMsg x ++ x.sig

/-- Encoding of an identifier, used inside TEL event serialization. -/
def encIdent : Ident → Bytes
  | .basic k => [0, k]
  | .selfAddr d => 1 :: d.bytes

/-- Serialization of a TEL event (`vcp.serialize()`, `iss.serialize()`,
...).  Modelled from the spec: the TEL engine serializes events for digest
derivation. -/
def serializeTel (e : TelEvent) : Bytes :=
  encIdent e.pre ++ e.sn ::
  (match e.kind with
   | .vcp issr cfg thr bs =>
       0 :: encIdent issr ++ (cfg.foldr (fun _ a => 0 :: a) []) ++ thr ::
         bs.foldr (fun b a => encIdent b ++ a) []
   | .vrt ba br =>
       1 :: (ba.foldr (fun b a => encIdent b ++ a) []) ++
         2 :: br.foldr (fun b a => encIdent b ++ a) []
   | .iss => [2]
   | .rev => [3])

/-- KEL state: the issuer's identifier and the append-only event log (a
log entry's index is its sequence number).  Modelled from the spec:
`crate::kerl::KERL` (repository code not under src/). -/
structure KerlSt where
  pre : Ident
  log : List KelEvent
deriving DecidableEq

/-- One fold step of the key state over a KEL event. -/
def stepKeys (acc : Option (List Nat)) : KelEvent → Option (List Nat)
  | .icp ks => some ks
  | .rot ks => some ks
  | .ixn _ => acc

/-- Current public keys of a KEL log (`none` when not yet incepted).
Modelled from the spec: state at sequence number n is the fold of events
[0..n]. -/
def currentKeys (log : List KelEvent) : Option (List Nat) :=
  log.foldl stepKeys none

/-- keri identifier state as consumed by the Controller
(`state.current.public_keys`). -/
structure IdState where
  publicKeys : List Nat
deriving DecidableEq

/-- Modelled from the spec: `KERL::incept` — appends the inception event
for the key manager's current key; fails when already incepted. -/
def kerlIncept (k : KerlSt) (km : KeyMgr) : Except Err KerlSt :=
  match k.log with
  | [] => .ok ⟨.basic km.curKey, [.icp [km.curKey]]⟩
  | _ => .error .kelError

/-- Modelled from the spec: `KERL::rotate` — appends a rotation event to
the key manager's current key; fails when not incepted. -/
def kerlRotate (k : KerlSt) (km : KeyMgr) : Except Err KerlSt :=
  match currentKeys k.log with
  | none => .error .kelError
  | some _ => .ok ⟨k.pre, k.log ++ [.rot [km.curKey]]⟩

/-- Modelled from the spec: `KERL::get_state` — `some` of the identifier
state when the KEL is incepted (only the identifier is consumed here). -/
def kerlGetState (k : KerlSt) : Option Ident :=
  (currentKeys k.log).map (fun _ => k.pre)

/-- Modelled from the spec: `KERL::make_ixn_with_seal` — appends an
interaction event carrying the given seals, signed by the key manager.
Fails (`AnchorFailed`) when the KEL has no state or the key manager's key
is not part of the current key set (stale signer / invalid signature). -/
def makeIxnWithSeal (k : KerlSt) (seals : List EvSeal) (km : KeyMgr) :
    Except Err (SignedIxn × KerlSt) :=
  match currentKeys k.log with
  | none => .error .anchorFailed
  | some ks =>
      if decide (km.curKey ∈ ks) then
        .ok (⟨k.log.length, seals, [km.curKey]⟩, ⟨k.pre, k.log ++ [.ixn seals]⟩)
      else .error .anchorFailed

/-- Modelled from the spec: `KERL::get_state_for_seal` — the key state
authoritative exactly at the event with the given sequence number and
digest; `none` when no such event exists or the digest does not match the
event at that sequence number. -/
def getStateForSeal (k : KerlSt) (pre : Ident) (sn : Nat) (d : Digest) :
    Option IdState :=
  if pre = k.pre then
    match k.log[sn]? with
    | some e =>
        if blake3 (serializeKelEvent sn e) = d then
          (currentKeys (k.log.take (sn + 1))).map IdState.mk
        else none
    | none => none
  else none

/-- TEL state: the registry issuer (set by management inception), the
management sub-log and the credential sub-log.  Modelled from the spec:
`crate::tel::Tel` (repository code not under src/). -/
structure TelSt where
  issuer : Option Ident
  mgmt : List VEvent
  vcs : List VEvent
deriving DecidableEq

/-- Modelled from the spec: `Tel::get_tel` — the per-credential sub-log of
the credential identified by digest `mh`, oldest first. -/
def getTel (tel : TelSt) (mh : Digest) : List VEvent :=
  tel.vcs.filter (fun ve => decide (ve.event.pre = Ident.selfAddr mh))

/-- One fold step of the per-credential state machine
`NotIssued → Issued → Revoked`. -/
def updState (s : TelState) (e : TelEvent) : TelState :=
  match s, e.kind with
  | .notIssued, .iss => .issued (blake3 (serializeTel e))
  | .issued _, .rev => .revoked
  | s, _ => s

/-- Modelled from the spec: `Tel::get_vc_state` — folds the credential's
event sequence into its state, oldest first. -/
def getVcState (tel : TelSt) (mh : Digest) : TelState :=
  (getTel tel mh).foldl (fun s ve => updState s ve.event) .notIssued

/-- Modelled from the spec: `Tel::make_inception_event` — builds the
management inception event (registry identifier is content-derived). -/
def makeInceptionEvent (issr : Ident) (config : List Cfg) (threshold : Nat)
    (backers : List Ident) : TelEvent :=
  ⟨.selfAddr (blake3 (0 :: encIdent issr)), 0, .vcp issr config threshold backers⟩

/-- Modelled from the spec: `Tel::make_rotation_event` — builds a backer
rotation event for the already-incepted registry; fails otherwise. -/
def makeRotationEvent (tel : TelSt) (ba br : List Ident) : Except Err TelEvent :=
  match tel.mgmt.head? with
  | none => .error .telError
  | some ve0 => .ok ⟨ve0.event.pre, tel.mgmt.length, .vrt ba br⟩

/-- Modelled from the spec: `Tel::make_issuance_event` — builds the
issuance event for `digest(message)`; fails with an invalid transition
when the credential already has any prior event. -/
def makeIssuanceEvent (tel : TelSt) (msg : Bytes) : Except Err TelEvent :=
  let mh := blake3 msg
  if (getTel tel mh).isEmpty then .ok ⟨.selfAddr mh, 0, .iss⟩
  else .error .invalidTransition

/-- Modelled from the spec: `Tel::make_revoke_event` — builds the
revocation event; fails with an invalid transition unless the credential
state is currently Issued. -/
def makeRevokeEvent (tel : TelSt) (mh : Digest) : Except Err TelEvent :=
  match getVcState tel mh with
  | .issued _ => .ok ⟨.selfAddr mh, (getTel tel mh).length, .rev⟩
  | _ => .error .invalidTransition

/-- Modelled from the spec: `Tel::process` — persists a verifiable event
into the corresponding sub-log (transition validity is enforced at event
construction, per section 4.3 of the spec). -/
def telProcess (tel : TelSt) (ve : VEvent) : TelSt :=
  match ve.event.kind with
  | .vcp issr _ _ _ => ⟨some issr, tel.mgmt ++ [ve], tel.vcs⟩
  | .vrt _ _ => ⟨tel.issuer, tel.mgmt ++ [ve], tel.vcs⟩
  | .iss => ⟨tel.issuer, tel.mgmt, tel.vcs ++ [ve]⟩
  | .rev => ⟨tel.issuer, tel.mgmt, tel.vcs ++ [ve]⟩

/-- The source seal derived from the interaction event message alone
(`ixn.event_message.serialize()`, src lines 80–83 and 141–144). -/
def sourceSealOfMsg (x : SignedIxn) : SourceSeal :=
  ⟨x.sn, blake3 (serializeIxnMsg x)⟩

/-- The source seal derived from the signed interaction event
(`ixn.serialize()`, src lines 118–121 and 164–167). -/
def sourceSealOfSigned (x : SignedIxn) : SourceSeal :=
  ⟨x.sn, blake3 (serializeSignedIxn x)⟩

/-- The `Controller` (src/src/issuer/mod.rs): one KEL, one TEL. -/
structure Controller where
  kerl : KerlSt
  tel : TelSt
deriving DecidableEq

/-- `Controller::new`: fresh controller over empty logs
(`IdentifierPrefix::default()`). -/
def Controller.newEmpty : Controller := ⟨⟨.basic 0, []⟩, ⟨none, [], []⟩⟩

/-- The management inception event built by `incept_tel` (src lines
60–69): a `None` backers argument sets the no-backers config with an
empty backer list. -/
def vcpEventOf (issuerPre : Ident) (backers : Option (List Ident)) (thr : Nat) : TelEvent :=
  match backers with
  | some bs => makeInceptionEvent issuerPre [] thr bs
  | none => makeInceptionEvent issuerPre [.noBackers] thr []

/-- `Controller::incept_tel` (src lines 54–91).  Builds the management
inception event, anchors it in the KEL via an interaction event, derives
the source seal from the interaction event message, and submits the
verifiable event to the TEL.  The `none` result models the panic of
`get_state().unwrap().unwrap()` on an unincepted KEL (src line 65). -/
def inceptTel (st : Controller) (km : KeyMgr) (backers : Option (List Ident))
    (backerThreshold : Nat) : Option (Controller × Except Err Unit) :=
  match kerlGetState st.kerl with
  | none => none
  | some issuerPre =>
      let vcp := vcpEventOf issuerPre backers backerThreshold
      let vcpSeal : EvSeal := ⟨vcp.pre, vcp.sn, blake3 (serializeTel vcp)⟩
      match makeIxnWithSeal st.kerl [vcpSeal] km with
      | .error e => some (st, .error e)
      | .ok (ixn, kerl') =>
          some (⟨kerl', telProcess st.tel ⟨vcp, sourceSealOfMsg ixn⟩⟩, .ok ())

/-- `Controller::incept_kel` (src lines 94–97). -/
def inceptKel (st : Controller) (km : KeyMgr) : Controller × Except Err Unit :=
  match kerlIncept st.kerl km with
  | .error e => (st, .error e)
  | .ok kerl' => (⟨kerl', st.tel⟩, .ok ())

/-- `Controller::update_backers` (src lines 101–128).  Note the source
seal digest here is of the signed interaction event (`ixn.serialize()`,
src line 120). -/
def updateBackers (st : Controller) (ba br : List Ident) (km : KeyMgr) :
    Controller × Except Err Unit :=
  match makeRotationEvent st.tel ba br with
  | .error e => (st, .error e)
  | .ok rcp =>
      let rcpSeal : EvSeal := ⟨rcp.pre, rcp.sn, blake3 (serializeTel rcp)⟩
      match makeIxnWithSeal st.kerl [rcpSeal] km with
      | .error e => (st, .error e)
      | .ok (ixn, kerl') =>
          (⟨kerl', telProcess st.tel ⟨rcp, sourceSealOfSigned ixn⟩⟩, .ok ())

/-- `Controller::issue` (src lines 130–149).  Builds the issuance event,
anchors it, derives the source seal from the interaction event message
(src line 143), submits, then signs the message with the key manager. -/
def issue (st : Controller) (msg : Bytes) (km : KeyMgr) :
    Controller × Except Err Bytes :=
  match makeIssuanceEvent st.tel msg with
  | .error e => (st, .error e)
  | .ok issEv =>
      let issSeal : EvSeal := ⟨issEv.pre, issEv.sn, blake3 (serializeTel issEv)⟩
      match makeIxnWithSeal st.kerl [issSeal] km with
      | .error e => (st, .error e)
      | .ok (ixn, kerl') =>
          (⟨kerl', telProcess st.tel ⟨issEv, sourceSealOfMsg ixn⟩⟩,
           .ok (kmSign km msg))

/-- `Controller::revoke` (src lines 151–174).  Note the source seal digest
here is of the signed interaction event (`ixn.serialize()`, src line
166). -/
def revoke (st : Controller) (msg : Bytes) (km : KeyMgr) :
    Controller × Except Err Unit :=
  match makeRevokeEvent st.tel (blake3 msg) with
  | .error e => (st, .error e)
  | .ok revEv =>
      let revSeal : EvSeal := ⟨revEv.pre, revEv.sn, blake3 (serializeTel revEv)⟩
      match makeIxnWithSeal st.kerl [revSeal] km with
      | .error e => (st, .error e)
      | .ok (ixn, kerl') =>
          (⟨kerl', telProcess st.tel ⟨revEv, sourceSealOfSigned ixn⟩⟩, .ok ())

/-- `Controller::rotate` (src lines 176–179). -/
def rotateC (st : Controller) (km : KeyMgr) : Controller × Except Err Unit :=
  match kerlRotate st.kerl km with
  | .error e => (st, .error e)
  | .ok kerl' => (⟨kerl', st.tel⟩, .ok ())

/-- `Controller::get_pub_key` (src lines 192–216): extract the source seal
of the last event in the credential's TEL log, then look up the KEL state
authoritative at that anchor. -/
def getPubKey (st : Controller) (mh : Digest) : Except Err (List Nat) :=
  match (getTel st.tel mh).getLast? with
  | none => .error .noSuchCredential
  | some ve =>
      match st.tel.issuer with
      | none => .error .telError
      | some issr =>
          match getStateForSeal st.kerl issr ve.srcSeal.sn ve.srcSeal.digest with
          | some state => .ok state.publicKeys
          | none => .error .noKeyData

/-- The key-checking fold of `Controller::verify` (src lines 225–228):
`fold(true, |acc, k| acc && k.verify(message, sig).unwrap())`.  Rust's
`&&` short-circuits, so the primitive is not consulted once `acc` is
false; `none` models the panic of `.unwrap()` when the primitive rejects
the signature bytes. -/
def checkKeys (msg sig : Bytes) : Bool → List Nat → Option Bool
  | acc, [] => some acc
  | acc, k :: ks =>
      if acc then
        match primVerify k msg sig with
        | .ok b => checkKeys msg sig b ks
        | .error _ => none
      else checkKeys msg sig false ks

/-- `Controller::verify` (src lines 219–232).  `none` models the panic on
`.unwrap()` of a rejected signature. -/
def verify (st : Controller) (msg sig : Bytes) : Option (Except Err Bool) :=
  let mh := blake3 msg
  match getVcState st.tel mh with
  | .notIssued => some (.error .notYetIssued)
  | .issued _ =>
      match getPubKey st mh with
      | .error e => some (.error e)
      | .ok keys =>
          match checkKeys msg sig true keys with
          | none => none
          | some b => some (.ok b)
  | .revoked => some (.error .revoked)

/-- `Controller::init` (src lines 39–50): incept the KEL, then the TEL.
`none` models the panic path inside `incept_tel`. -/
def initC (km : KeyMgr) (backers : Option (List Ident)) (thr : Nat) :
    Option (Except Err Controller) :=
  match kerlIncept Controller.newEmpty.kerl km with
  | .error e => some (.error e)
  | .ok kerl' =>
      match inceptTel ⟨kerl', Controller.newEmpty.tel⟩ km backers thr with
      | none => none
      | some (_, .error e) => some (.error e)
      | some (st', .ok _) => some (.ok st')

/-- Whether a KEL append (anchoring) by this key manager can succeed:
the KEL is incepted and the key manager holds a current key. -/
def anchorOk (k : KerlSt) (km : KeyMgr) : Bool :=
  match currentKeys k.log with
  | none => false
  | some ks => decide (km.curKey ∈ ks)

/-- A submitted TEL event is anchored in the controller's KEL: the KEL
event at its source seal's sequence number exists, is an interaction
event, and contains the seal of the TEL event (matching identifier,
sequence number and serialization digest). -/
def anchoredIn (st : Controller) (ve : VEvent) : Bool :=
  match st.kerl.log[ve.srcSeal.sn]? with
  | some (.ixn seals) =>
      decide (EvSeal.mk ve.event.pre ve.event.sn (blake3 (serializeTel ve.event)) ∈ seals)
  | _ => false

/-- Mutual-anchoring invariant: every event in either TEL sub-log is
anchored in the KEL. -/
def telInv (st : Controller) : Prop :=
  ∀ ve ∈ st.tel.mgmt ++ st.tel.vcs, anchoredIn st ve = true

instance (st : Controller) : Decidable (telInv st) := by
  unfold telInv; infer_instance

/-- `isErr` of a `Result`. -/
def isErr : Except Err α → Bool
  | .error _ => true
  | .ok _ => false

/- Concrete scenario used by witnesses and counterexamples: initialize the
registry with key 1, issue message `[9]`, then rotate to key 2 or revoke. -/

/-- Key manager holding key 1. -/
def kmA : KeyMgr := ⟨1⟩

/-- Key manager holding key 2 (used after rotation). -/
def kmB : KeyMgr := ⟨2⟩

/-- The message issued in the concrete scenario. -/
def msgA : Bytes := [9]

/-- Controller state after `init` with no backers-config, backers `[]`,
threshold 0, under `kmA`. -/
def stInit : Controller :=
  match initC kmA (some []) 0 with
  | some (.ok st) => st
  | _ => Controller.newEmpty

/-- State after issuing `msgA`. -/
def stIss : Controller := (issue stInit msgA kmA).1

/-- The signature returned by that issuance. -/
def sigA : Bytes := kmSign kmA msgA

/-- State after a key rotation following the issuance. -/
def stRot : Controller := (rotateC stIss kmB).1

/-- State after revoking `msgA` following the issuance. -/
def stRev : Controller := (revoke stIss msgA kmA).1

/-- The issuance event of the concrete scenario. -/
def issEvA : TelEvent := ⟨.selfAddr (blake3 msgA), 0, .iss⟩

/-- The revocation event of the concrete scenario. -/
def revEvA : TelEvent := ⟨.selfAddr (blake3 msgA), 1, .rev⟩

/-- The issuance verifiable event committed in the scenario. -/
def issVeA : VEvent :=
  ⟨issEvA, ⟨2, blake3 (serializeIxnMsg
    ⟨2, [⟨issEvA.pre, issEvA.sn, blake3 (serializeTel issEvA)⟩], [1]⟩)⟩⟩

/-- The revocation verifiable event committed in the scenario (its seal
digest is of the signed interaction event). -/
def revVeA : VEvent :=
  ⟨revEvA, ⟨3, blake3 (serializeSignedIxn
    ⟨3, [⟨revEvA.pre, revEvA.sn, blake3 (serializeTel revEvA)⟩], [1]⟩)⟩⟩

/-- A hand-built controller state whose one issued credential anchors at a
KEL inception with an empty key set (used to exercise the vacuous
verification path). -/
def stEmptyKeys : Controller :=
  ⟨⟨.basic 0, [.icp []]⟩,
   ⟨some (.basic 0), [],
    [⟨⟨.selfAddr (blake3 [5]), 0, .iss⟩, ⟨0, blake3 (serializeKelEvent 0 (.icp []))⟩⟩]⟩⟩

end VCIssuer

namespace VCIssuer

deriving instance DecidableEq for Except

/-! Helper lemmas. -/

/-- A KEL append fails (with `AnchorFailed`) exactly when the signer
cannot anchor, independently of the seals being anchored. -/
theorem makeIxn_of_anchorFail (k : KerlSt) (km : KeyMgr) (seals : List EvSeal)
    (h : anchorOk k km = false) :
    makeIxnWithSeal k seals km = .error .anchorFailed := by
  unfold anchorOk at h
  unfold makeIxnWithSeal
  cases hc : currentKeys k.log with
  | none => rfl
  | some ks =>
      rw [hc] at h
      simp only [decide_eq_false_iff_not] at h
      simp [h]

/-- Inversion of a successful KEL append: the returned interaction event
and the new KEL log. -/
theorem makeIxn_ok {k : KerlSt} {seals : List EvSeal} {km : KeyMgr}
    {x : SignedIxn} {k' : KerlSt}
    (h : makeIxnWithSeal k seals km = .ok (x, k')) :
    x = ⟨k.log.length, seals, [km.curKey]⟩ ∧ k' = ⟨k.pre, k.log ++ [.ixn seals]⟩ := by
  unfold makeIxnWithSeal at h
  split at h
  · exact Except.noConfusion h
  · split at h
    · have h2 := Except.ok.inj h
      rw [Prod.mk.injEq] at h2
      exact ⟨h2.1.symm, h2.2.symm⟩
    · exact Except.noConfusion h

/-- Inversion of a successful issuance-event construction. -/
theorem makeIssuanceEvent_ok {tel : TelSt} {msg : Bytes} {e : TelEvent}
    (h : makeIssuanceEvent tel msg = .ok e) :
    e = ⟨.selfAddr (blake3 msg), 0, .iss⟩ := by
  simp only [makeIssuanceEvent] at h
  split at h
  · exact (Except.ok.inj h).symm
  · exact Except.noConfusion h

/-- Inversion of a successful revocation-event construction. -/
theorem makeRevokeEvent_ok {tel : TelSt} {mh : Digest} {e : TelEvent}
    (h : makeRevokeEvent tel mh = .ok e) :
    e = ⟨.selfAddr mh, (getTel tel mh).length, .rev⟩ := by
  unfold makeRevokeEvent at h
  split at h
  · exact (Except.ok.inj h).symm
  · exact Except.noConfusion h

/-- Inversion of a successful backer-rotation-event construction. -/
theorem makeRotationEvent_ok {tel : TelSt} {ba br : List Ident} {e : TelEvent}
    (h : makeRotationEvent tel ba br = .ok e) :
    ∃ p, e = ⟨p, tel.mgmt.length, .vrt ba br⟩ := by
  unfold makeRotationEvent at h
  split at h
  · exact Except.noConfusion h
  · exact ⟨_, (Except.ok.inj h).symm⟩

/-- The verification primitive, on signature bytes it accepts, reports
exactly `sigOkFor`. -/
theorem primVerify_wf (k : Nat) (msg sig : Bytes) (hw : wellFormedSig sig = true) :
    primVerify k msg sig = .ok (sigOkFor k msg sig) := by
  match sig with
  | [] => exact absurd hw (by simp [wellFormedSig])
  | [a] => exact absurd hw (by simp [wellFormedSig])
  | a :: b :: t =>
      cases a with
      | zero => rfl
      | succ n => exact absurd hw (by simp [wellFormedSig])

/-- The source's key-checking fold, on accepted signature bytes, computes
the conjunction of per-key verification over the whole key list. -/
theorem checkKeys_eq_all (msg sig : Bytes) (hw : wellFormedSig sig = true) :
    ∀ (keys : List Nat) (acc : Bool),
      checkKeys msg sig acc keys =
        some (acc && keys.all (fun k => sigOkFor k msg sig)) := by
  intro keys
  induction keys with
  | nil => intro acc; simp [checkKeys]
  | cons k ks ih =>
      intro acc
      cases acc with
      | false =>
          have hstep : checkKeys msg sig false (k :: ks) = checkKeys msg sig false ks := by
            simp [checkKeys]
          rw [hstep, ih false]
          simp
      | true =>
          have hstep : checkKeys msg sig true (k :: ks) =
              checkKeys msg sig (sigOkFor k msg sig) ks := by
            simp [checkKeys, primVerify_wf k msg sig hw]
          rw [hstep, ih (sigOkFor k msg sig)]
          simp [List.all_cons]

/-- C1: for each of the four orchestrator operations (incept_tel,
update_backers, issue, revoke), if appending the anchoring interaction
event to the KEL fails, no VerifiableEvent is submitted to the TEL and no
state changes: each operation returns the input state unchanged together
with an error (anchoring strictly precedes submission; `none` for
incept_tel is the panic on an unincepted KEL, which also precedes any TEL
submission). -/
theorem c1_anchor_fail_leaves_tel_unchanged
    (st : Controller) (km : KeyMgr) (backers : Option (List Ident)) (thr : Nat)
    (ba br : List Ident) (msg : Bytes)
    (h : anchorOk st.kerl km = false) :
    (inceptTel st km backers thr = none ∨
       inceptTel st km backers thr = some (st, .error .anchorFailed)) ∧
    (updateBackers st ba br km = (st, .error .anchorFailed) ∨
       updateBackers st ba br km = (st, .error .telError)) ∧
    (issue st msg km = (st, .error .anchorFailed) ∨
       issue st msg km = (st, .error .invalidTransition)) ∧
    (revoke st msg km = (st, .error .anchorFailed) ∨
       revoke st msg km = (st, .error .invalidTransition)) := by
  refine ⟨?_, ?_, ?_, ?_⟩
  · simp only [inceptTel, makeIxn_of_anchorFail _ _ _ h]
    cases kerlGetState st.kerl with
    | none => left; rfl
    | some p => right; rfl
  · simp only [updateBackers, makeIxn_of_anchorFail _ _ _ h]
    cases hr : makeRotationEvent st.tel ba br with
    | error e =>
        unfold makeRotationEvent at hr
        split at hr
        · right; rw [← Except.error.inj hr]
        · exact Except.noConfusion hr
    | ok rcp => left; rfl
  · simp only [issue, makeIxn_of_anchorFail _ _ _ h]
    cases hi : makeIssuanceEvent st.tel msg with
    | error e =>
        simp only [makeIssuanceEvent] at hi
        split at hi
        · exact Except.noConfusion hi
        · right; rw [← Except.error.inj hi]
    | ok ev => left; rfl
  · simp only [revoke, makeIxn_of_anchorFail _ _ _ h]
    cases hv : makeRevokeEvent st.tel (blake3 msg) with
    | error e =>
        unfold makeRevokeEvent at hv
        split at hv
        · exact Except.noConfusion hv
        · right; rw [← Except.error.inj hv]
    | ok ev => left; rfl

/-- C1 witness: a controller whose KEL holds key 1, driven with a key
manager holding key 2 (stale signer): anchoring fails and every operation
leaves the state untouched. -/
theorem c1_witness :
    anchorOk stInit.kerl kmB = false ∧
    ((inceptTel stInit kmB (some []) 0 = none ∨
        inceptTel stInit kmB (some []) 0 = some (stInit, .error .anchorFailed)) ∧
     (updateBackers stInit [] [] kmB = (stInit, .error .anchorFailed) ∨
        updateBackers stInit [] [] kmB = (stInit, .error .telError)) ∧
     (issue stInit [4] kmB = (stInit, .error .anchorFailed) ∨
        issue stInit [4] kmB = (stInit, .error .invalidTransition)) ∧
     (revoke stInit [4] kmB = (stInit, .error .anchorFailed) ∨
        revoke stInit [4] kmB = (stInit, .error .invalidTransition))) :=
  ⟨by decide, c1_anchor_fail_leaves_tel_unchanged stInit kmB (some []) 0 [] [] [4] (by decide)⟩

/-- C4: `verify` fails with the not-yet-issued error whenever the
credential state for digest(message) is NotIssued, and with the revoked
error whenever that state is Revoked; the result is fixed by the TEL state
alone — for every controller with that state and every signature the
same error is returned, without key resolution or signature checking. -/
theorem c4_verify_state_gate (st : Controller) (msg sig : Bytes) :
    (getVcState st.tel (blake3 msg) = .notIssued →
       verify st msg sig = some (.error .notYetIssued)) ∧
    (getVcState st.tel (blake3 msg) = .revoked →
       verify st msg sig = some (.error .revoked)) := by
  constructor <;> intro h <;> simp only [verify] <;> rw [h]

/-- C4 witness: a fresh controller (credential never issued) and the
concrete revoked credential of the scenario. -/
theorem c4_witness :
    (getVcState Controller.newEmpty.tel (blake3 [3]) = .notIssued ∧
       verify Controller.newEmpty [3] [] = some (.error .notYetIssued)) ∧
    (getVcState stRev.tel (blake3 msgA) = .revoked ∧
       verify stRev msgA sigA = some (.error .revoked)) :=
  ⟨⟨by decide, (c4_verify_state_gate Controller.newEmpty [3] []).1 (by decide)⟩,
   ⟨by decide, (c4_verify_state_gate stRev msgA sigA).2 (by decide)⟩⟩

/-- C5: when the credential state is Issued and the signature bytes are
accepted by the primitive, `verify` returns exactly the conjunction of
per-key validation over every key in the resolved key set: one failing key
makes the result false. -/
theorem c5_verify_conjunctive (st : Controller) (msg sig : Bytes) (d : Digest)
    (keys : List Nat)
    (h1 : getVcState st.tel (blake3 msg) = .issued d)
    (h2 : getPubKey st (blake3 msg) = .ok keys)
    (hw : wellFormedSig sig = true) :
    verify st msg sig = some (.ok (keys.all (fun k => sigOkFor k msg sig))) := by
  simp only [verify, h1, h2]
  rw [checkKeys_eq_all msg sig hw keys true]
  simp

/-- C5 witness: the issued credential of the concrete scenario, with its
singleton resolved key set. -/
theorem c5_witness :
    getVcState stIss.tel (blake3 msgA) = .issued (blake3 (serializeTel issEvA)) ∧
    getPubKey stIss (blake3 msgA) = .ok [1] ∧
    wellFormedSig sigA = true ∧
    verify stIss msgA sigA = some (.ok ([1].all (fun k => sigOkFor k msgA sigA))) :=
  ⟨by decide, by decide, by decide,
   c5_verify_conjunctive stIss msgA sigA (blake3 (serializeTel issEvA)) [1]
     (by decide) (by decide) (by decide)⟩

/-- C9: `get_pub_key` takes the source seal of the last event of the
credential's TEL log; it fails with the no-such-credential error when that
log is empty, fails with the no-key-data error when the historical KEL
lookup at the seal's (sn, digest) returns no key state, and otherwise
returns the public keys of the state authoritative at that anchor. -/
theorem c9_get_pub_key_errors (st : Controller) (mh : Digest) :
    ((getTel st.tel mh).getLast? = none →
       getPubKey st mh = .error .noSuchCredential) ∧
    (∀ ve issr, (getTel st.tel mh).getLast? = some ve → st.tel.issuer = some issr →
       (getStateForSeal st.kerl issr ve.srcSeal.sn ve.srcSeal.digest = none →
          getPubKey st mh = .error .noKeyData) ∧
       (∀ s, getStateForSeal st.kerl issr ve.srcSeal.sn ve.srcSeal.digest = some s →
          getPubKey st mh = .ok s.publicKeys)) := by
  constructor
  · intro h; simp only [getPubKey, h]
  · intro ve issr h1 h2
    constructor
    · intro h3; simp only [getPubKey, h1, h2, h3]
    · intro s h3; simp only [getPubKey, h1, h2, h3]

/-- C9 witness: an empty credential log, the revoked credential (whose
last-event seal digest does not resolve in the KEL), and the issued
credential (whose seal resolves to key set `[1]`). -/
theorem c9_witness :
    ((getTel Controller.newEmpty.tel (blake3 [3])).getLast? = none ∧
       getPubKey Controller.newEmpty (blake3 [3]) = .error .noSuchCredential) ∧
    getPubKey stRev (blake3 msgA) = .error .noKeyData ∧
    getPubKey stIss (blake3 msgA) = .ok [1] :=
  ⟨⟨by decide, (c9_get_pub_key_errors Controller.newEmpty (blake3 [3])).1 (by decide)⟩,
   ((c9_get_pub_key_errors stRev (blake3 msgA)).2 revVeA (.basic 1)
      (by decide) (by decide)).1 (by decide),
   ((c9_get_pub_key_errors stIss (blake3 msgA)).2 issVeA (.basic 1)
      (by decide) (by decide)).2 ⟨[1]⟩ (by decide)⟩

/-- C10: if the key set resolved for an Issued credential is empty, the
source's fold starts at true and never consults the primitive, so `verify`
returns Ok(true) for every message and every signature. -/
theorem c10_empty_keys_vacuous_true (st : Controller) (msg sig : Bytes) (d : Digest)
    (h1 : getVcState st.tel (blake3 msg) = .issued d)
    (h2 : getPubKey st (blake3 msg) = .ok []) :
    verify st msg sig = some (.ok true) := by
  simp only [verify, h1, h2]
  rfl

/-- C10 witness: a credential anchored at a KEL inception with an empty
key set: verification returns Ok(true) even for malformed signature
bytes. -/
theorem c10_witness :
    getVcState stEmptyKeys.tel (blake3 [5]) =
      .issued (blake3 (serializeTel ⟨.selfAddr (blake3 [5]), 0, .iss⟩)) ∧
    getPubKey stEmptyKeys (blake3 [5]) = .ok [] ∧
    verify stEmptyKeys [5] [1, 2] = some (.ok true) :=
  ⟨by decide, by decide,
   c10_empty_keys_vacuous_true stEmptyKeys [5] [1, 2]
     (blake3 (serializeTel ⟨.selfAddr (blake3 [5]), 0, .iss⟩)) (by decide) (by decide)⟩

/-- C2 counterexample: run init, issue, revoke concretely.  The issuance's
committed verifiable event carries a source-seal digest equal to the
Blake3-256 digest of the serialized anchoring interaction event at its
sequence number, but the revocation's does not (revoke digests the signed
event, `ixn.serialize()`, whose serialization appends the attached
signatures) — so the seal digest is not computed the same way in all four
operations. -/
theorem c2_seal_digest_not_uniform :
    (revoke stIss msgA kmA).2 = .ok () ∧
    ((stIss.tel.vcs.getLast?).map (fun ve =>
        match stIss.kerl.log[ve.srcSeal.sn]? with
        | some e => decide (ve.srcSeal.digest = blake3 (serializeKelEvent ve.srcSeal.sn e))
        | none => true) = some true) ∧
    ((stRev.tel.vcs.getLast?).map (fun ve =>
        match stRev.kerl.log[ve.srcSeal.sn]? with
        | some e => decide (ve.srcSeal.digest = blake3 (serializeKelEvent ve.srcSeal.sn e))
        | none => true) = some false) := by decide

/-- C2 (amended): in every successful operation the source seal's sn is
the anchoring interaction event's sequence number (its position in the
KEL); the seal's digest is the Blake3-256 digest of the serialized
interaction event message in incept_tel and issue, but of the serialized
signed interaction event (message plus attached signatures) in
update_backers and revoke. -/
theorem c2_source_seal_amended
    (st : Controller) (km : KeyMgr) (backers : Option (List Ident)) (thr : Nat)
    (ba br : List Ident) (msg : Bytes) :
    (∀ r, inceptTel st km backers thr = some r → isErr r.2 = false →
       ∃ x : SignedIxn, x.sn = st.kerl.log.length ∧
         r.1.kerl.log = st.kerl.log ++ [.ixn x.seals] ∧
         (r.1.tel.mgmt.getLast?).map VEvent.srcSeal = some (sourceSealOfMsg x)) ∧
    (∀ st' u, updateBackers st ba br km = (st', .ok u) →
       ∃ x : SignedIxn, x.sn = st.kerl.log.length ∧
         st'.kerl.log = st.kerl.log ++ [.ixn x.seals] ∧
         (st'.tel.mgmt.getLast?).map VEvent.srcSeal = some (sourceSealOfSigned x)) ∧
    (∀ st' sig, issue st msg km = (st', .ok sig) →
       ∃ x : SignedIxn, x.sn = st.kerl.log.length ∧
         st'.kerl.log = st.kerl.log ++ [.ixn x.seals] ∧
         (st'.tel.vcs.getLast?).map VEvent.srcSeal = some (sourceSealOfMsg x)) ∧
    (∀ st' u, revoke st msg km = (st', .ok u) →
       ∃ x : SignedIxn, x.sn = st.kerl.log.length ∧
         st'.kerl.log = st.kerl.log ++ [.ixn x.seals] ∧
         (st'.tel.vcs.getLast?).map VEvent.srcSeal = some (sourceSealOfSigned x)) := by
  refine ⟨?_, ?_, ?_, ?_⟩
  · intro r hr hok
    simp only [inceptTel.eq_def] at hr
    split at hr
    · exact Option.noConfusion hr
    · split at hr
      · rw [← Option.some.inj hr] at hok
        exact absurd hok (by simp [isErr])
      · rename_i issuerPre x0 k0 heq
        obtain ⟨hx0, hk0⟩ := makeIxn_ok heq
        rw [← Option.some.inj hr]
        refine ⟨x0, ?_, ?_, ?_⟩
        · rw [hx0]
        · rw [hk0, hx0]
        · cases backers <;>
            simp only [vcpEventOf, makeInceptionEvent, telProcess] <;>
            rw [List.getLast?_concat] <;> rfl
  · intro st' u hsucc
    cases hmr : makeRotationEvent st.tel ba br with
    | error e => simp only [updateBackers, hmr] at hsucc; simp at hsucc
    | ok rcp =>
        cases hmx : makeIxnWithSeal st.kerl
            [⟨rcp.pre, rcp.sn, blake3 (serializeTel rcp)⟩] km with
        | error e => simp only [updateBackers, hmr, hmx] at hsucc; simp at hsucc
        | ok p2 =>
            obtain ⟨x0, k0⟩ := p2
            simp only [updateBackers, hmr, hmx] at hsucc
            obtain ⟨p0, hev⟩ := makeRotationEvent_ok hmr
            obtain ⟨hx0, hk0⟩ := makeIxn_ok hmx
            rw [Prod.mk.injEq] at hsucc
            obtain ⟨hst, -⟩ := hsucc
            rw [← hst]
            refine ⟨x0, ?_, ?_, ?_⟩
            · rw [hx0]
            · rw [hk0, hx0]
            · subst hev
              simp only [telProcess]
              rw [List.getLast?_concat]
              rfl
  · intro st' sig hsucc
    cases hmi : makeIssuanceEvent st.tel msg with
    | error e => simp only [issue, hmi] at hsucc; simp at hsucc
    | ok ev =>
        cases hmx : makeIxnWithSeal st.kerl
            [⟨ev.pre, ev.sn, blake3 (serializeTel ev)⟩] km with
        | error e => simp only [issue, hmi, hmx] at hsucc; simp at hsucc
        | ok p2 =>
            obtain ⟨x0, k0⟩ := p2
            simp only [issue, hmi, hmx] at hsucc
            have hev := makeIssuanceEvent_ok hmi
            obtain ⟨hx0, hk0⟩ := makeIxn_ok hmx
            rw [Prod.mk.injEq] at hsucc
            obtain ⟨hst, -⟩ := hsucc
            rw [← hst]
            refine ⟨x0, ?_, ?_, ?_⟩
            · rw [hx0]
            · rw [hk0, hx0]
            · subst hev
              simp only [telProcess]
              rw [List.getLast?_concat]
              rfl
  · intro st' u hsucc
    cases hmv : makeRevokeEvent st.tel (blake3 msg) with
    | error e => simp only [revoke, hmv] at hsucc; simp at hsucc
    | ok ev =>
        cases hmx : makeIxnWithSeal st.kerl
            [⟨ev.pre, ev.sn, blake3 (serializeTel ev)⟩] km with
        | error e => simp only [revoke, hmv, hmx] at hsucc; simp at hsucc
        | ok p2 =>
            obtain ⟨x0, k0⟩ := p2
            simp only [revoke, hmv, hmx] at hsucc
            have hev := makeRevokeEvent_ok hmv
            obtain ⟨hx0, hk0⟩ := makeIxn_ok hmx
            rw [Prod.mk.injEq] at hsucc
            obtain ⟨hst, -⟩ := hsucc
            rw [← hst]
            refine ⟨x0, ?_, ?_, ?_⟩
            · rw [hx0]
            · rw [hk0, hx0]
            · subst hev
              simp only [telProcess]
              rw [List.getLast?_concat]
              rfl

/-- C2 witness: the concrete issuance of the scenario, exercising the
amended statement's issue clause. -/
theorem c2_amended_witness :
    issue stInit msgA kmA = (stIss, .ok sigA) ∧
    (∃ x : SignedIxn, x.sn = stInit.kerl.log.length ∧
       stIss.kerl.log = stInit.kerl.log ++ [.ixn x.seals] ∧
       (stIss.tel.vcs.getLast?).map VEvent.srcSeal = some (sourceSealOfMsg x)) :=
  ⟨by decide,
   (c2_source_seal_amended stInit kmA (some []) 0 [] [] msgA).2.2.1 stIss sigA (by decide)⟩

/-- Anchoring is stable under KEL growth: an event anchored in a KEL log
stays anchored after further events are appended. -/
theorem anchoredIn_mono {st st' : Controller} {ve : VEvent} (ex : List KelEvent)
    (hlog : st'.kerl.log = st.kerl.log ++ ex)
    (h : anchoredIn st ve = true) : anchoredIn st' ve = true := by
  unfold anchoredIn at h ⊢
  rw [hlog]
  cases hg : st.kerl.log[ve.srcSeal.sn]? with
  | none => rw [hg] at h; exact Bool.noConfusion h
  | some e =>
      have hlt : ve.srcSeal.sn < st.kerl.log.length := by
        by_contra hge
        rw [List.getElem?_eq_none (Nat.le_of_not_lt hge)] at hg
        exact Option.noConfusion hg
      rw [List.getElem?_append_left hlt, hg]
      rw [hg] at h
      exact h

/-- A freshly appended interaction event anchors the verifiable event
whose seal it carries. -/
theorem anchoredIn_new {st' : Controller} (base : List KelEvent) (s : EvSeal)
    (ve : VEvent)
    (hlog : st'.kerl.log = base ++ [.ixn [s]])
    (hsn : ve.srcSeal.sn = base.length)
    (hs : s = ⟨ve.event.pre, ve.event.sn, blake3 (serializeTel ve.event)⟩) :
    anchoredIn st' ve = true := by
  unfold anchoredIn
  rw [hlog, hsn, List.getElem?_concat_length]
  simp [hs]

/-- One submission step preserves the mutual-anchoring invariant: the KEL
grew by the anchoring interaction event and the TEL grew by exactly the
verifiable event it seals. -/
theorem telInv_of_submit {st st' : Controller} (ve : VEvent) (s : EvSeal)
    (hlog : st'.kerl.log = st.kerl.log ++ [.ixn [s]])
    (hsn : ve.srcSeal.sn = st.kerl.log.length)
    (hs : s = ⟨ve.event.pre, ve.event.sn, blake3 (serializeTel ve.event)⟩)
    (hmem : ∀ w ∈ st'.tel.mgmt ++ st'.tel.vcs, w ∈ st.tel.mgmt ++ st.tel.vcs ∨ w = ve)
    (h : telInv st) : telInv st' := by
  intro w hw
  rcases hmem w hw with hold | rfl
  · exact anchoredIn_mono [.ixn [s]] hlog (h w hold)
  · exact anchoredIn_new st.kerl.log s w hlog hsn hs

/-- C3: mutual anchoring is preserved by every operation: starting from a
controller in which every committed TEL event is anchored (its source
seal's sequence number resolves to an existing KEL interaction event
containing the Seal with that TEL event's serialization digest), each of
incept_tel, update_backers, issue and revoke leaves every committed TEL
event — including the newly submitted one — anchored. -/
theorem c3_mutual_anchoring_preserved
    (st : Controller) (km : KeyMgr) (backers : Option (List Ident)) (thr : Nat)
    (ba br : List Ident) (msg : Bytes)
    (h : telInv st) :
    (∀ r, inceptTel st km backers thr = some r → telInv r.1) ∧
    telInv (updateBackers st ba br km).1 ∧
    telInv (issue st msg km).1 ∧
    telInv (revoke st msg km).1 := by
  refine ⟨?_, ?_, ?_, ?_⟩
  · intro r hr
    cases hks : kerlGetState st.kerl with
    | none =>
        simp only [inceptTel.eq_def, hks] at hr
        exact Option.noConfusion hr
    | some ip =>
        simp only [inceptTel.eq_def, hks] at hr
        cases hmx : makeIxnWithSeal st.kerl
            [⟨(vcpEventOf ip backers thr).pre, (vcpEventOf ip backers thr).sn,
              blake3 (serializeTel (vcpEventOf ip backers thr))⟩] km with
        | error e =>
            simp only [hmx] at hr
            rw [← Option.some.inj hr]
            exact h
        | ok p2 =>
            obtain ⟨x0, k0⟩ := p2
            simp only [hmx] at hr
            obtain ⟨hx0, hk0⟩ := makeIxn_ok hmx
            rw [← Option.some.inj hr]
            refine telInv_of_submit
              ⟨vcpEventOf ip backers thr, sourceSealOfMsg x0⟩ _ ?_ ?_ rfl ?_ h
            · rw [hk0]
            · rw [hx0]; rfl
            · intro w hw
              cases backers <;>
                simp only [vcpEventOf, makeInceptionEvent, telProcess] at hw ⊢ <;>
                simp only [List.mem_append, List.mem_singleton] at hw ⊢ <;>
                tauto
  · cases hmr : makeRotationEvent st.tel ba br with
    | error e => simp only [updateBackers, hmr]; exact h
    | ok rcp =>
        cases hmx : makeIxnWithSeal st.kerl
            [⟨rcp.pre, rcp.sn, blake3 (serializeTel rcp)⟩] km with
        | error e => simp only [updateBackers, hmr, hmx]; exact h
        | ok p2 =>
            obtain ⟨x0, k0⟩ := p2
            simp only [updateBackers, hmr, hmx]
            obtain ⟨p0, hev⟩ := makeRotationEvent_ok hmr
            obtain ⟨hx0, hk0⟩ := makeIxn_ok hmx
            refine telInv_of_submit ⟨rcp, sourceSealOfSigned x0⟩ _ ?_ ?_ rfl ?_ h
            · rw [hk0]
            · rw [hx0]; rfl
            · intro w hw
              subst hev
              simp only [telProcess] at hw ⊢
              simp only [List.mem_append, List.mem_singleton] at hw ⊢
              tauto
  · cases hmi : makeIssuanceEvent st.tel msg with
    | error e => simp only [issue, hmi]; exact h
    | ok ev =>
        cases hmx : makeIxnWithSeal st.kerl
            [⟨ev.pre, ev.sn, blake3 (serializeTel ev)⟩] km with
        | error e => simp only [issue, hmi, hmx]; exact h
        | ok p2 =>
            obtain ⟨x0, k0⟩ := p2
            simp only [issue, hmi, hmx]
            have hev := makeIssuanceEvent_ok hmi
            obtain ⟨hx0, hk0⟩ := makeIxn_ok hmx
            refine telInv_of_submit ⟨ev, sourceSealOfMsg x0⟩ _ ?_ ?_ rfl ?_ h
            · rw [hk0]
            · rw [hx0]; rfl
            · intro w hw
              subst hev
              simp only [telProcess] at hw ⊢
              simp only [List.mem_append, List.mem_singleton] at hw ⊢
              tauto
  · cases hmv : makeRevokeEvent st.tel (blake3 msg) with
    | error e => simp only [revoke, hmv]; exact h
    | ok ev =>
        cases hmx : makeIxnWithSeal st.kerl
            [⟨ev.pre, ev.sn, blake3 (serializeTel ev)⟩] km with
        | error e => simp only [revoke, hmv, hmx]; exact h
        | ok p2 =>
            obtain ⟨x0, k0⟩ := p2
            simp only [revoke, hmv, hmx]
            have hev := makeRevokeEvent_ok hmv
            obtain ⟨hx0, hk0⟩ := makeIxn_ok hmx
            refine telInv_of_submit ⟨ev, sourceSealOfSigned x0⟩ _ ?_ ?_ rfl ?_ h
            · rw [hk0]
            · rw [hx0]; rfl
            · intro w hw
              subst hev
              simp only [telProcess] at hw ⊢
              simp only [List.mem_append, List.mem_singleton] at hw ⊢
              tauto

/-- C3 witness: the initialized controller of the concrete scenario
satisfies the invariant, and each operation preserves it there. -/
theorem c3_witness :
    telInv stInit ∧
    ((∀ r, inceptTel stInit kmA (some []) 0 = some r → telInv r.1) ∧
     telInv (updateBackers stInit [] [] kmA).1 ∧
     telInv (issue stInit msgA kmA).1 ∧
     telInv (revoke stInit msgA kmA).1) :=
  ⟨by decide, c3_mutual_anchoring_preserved stInit kmA (some []) 0 [] [] msgA (by decide)⟩

/-- C8 (evidence of the panic): with the scenario's issued credential,
verification with the well-formed issuance signature returns Ok(true), but
verification with malformed signature bytes `[7]` hits the source's
`.unwrap()` on the primitive's rejection and panics (modelled as `none`)
instead of returning Ok(false). -/
theorem c8_verify_panics_on_malformed :
    getVcState stIss.tel (blake3 msgA) ≠ .notIssued ∧
    verify stIss msgA sigA = some (.ok true) ∧
    verify stIss msgA [7] = none := by decide

/-- Keys are unchanged by appending an interaction event to a KEL log. -/
theorem currentKeys_snoc_ixn (log : List KelEvent) (s : List EvSeal) :
    currentKeys (log ++ [.ixn s]) = currentKeys log := by
  unfold currentKeys
  rw [List.foldl_append]
  rfl

/-- Taking one past the base length of a one-event extension keeps it. -/
theorem take_len_snoc (l : List KelEvent) (e : KelEvent) :
    (l ++ [e]).take (l.length + 1) = l ++ [e] := by
  apply List.take_of_length_le
  simp

/-- Indexing at the base length after two single-event extensions returns
the first appended event. -/
theorem getElem_snoc2 (l : List KelEvent) (e e2 : KelEvent) :
    ((l ++ [e]) ++ [e2])[l.length]? = some e := by
  rw [List.getElem?_append_left (by simp), List.getElem?_concat_length]

/-- Taking one past the base length after two single-event extensions
keeps exactly the first extension. -/
theorem take_len_snoc2 (l : List KelEvent) (e e2 : KelEvent) :
    ((l ++ [e]) ++ [e2]).take (l.length + 1) = l ++ [e] := by
  rw [List.take_append_of_le_length (by simp), take_len_snoc]

/-- C6: whenever `issue(m)` succeeds on a controller whose current KEL key
set is the key manager's signing key (as every state reached through this
Controller's operations is, since inception and rotation install the key
manager's key) and whose registry issuer is the controller's identifier,
the returned signature verifies immediately: `verify(m, s) = Ok(true)`
with no intervening operation. -/
theorem c6_issue_then_verify (km : KeyMgr) (msg : Bytes) (st0 st1 : Controller)
    (sig : Bytes)
    (hkeys : currentKeys st0.kerl.log = some [km.curKey])
    (hiss : st0.tel.issuer = some st0.kerl.pre)
    (h1 : issue st0 msg km = (st1, .ok sig)) :
    verify st1 msg sig = some (.ok true) := by
  cases hmi : makeIssuanceEvent st0.tel msg with
  | error e => simp only [issue, hmi] at h1; simp at h1
  | ok ev =>
    cases hmx : makeIxnWithSeal st0.kerl [⟨ev.pre, ev.sn, blake3 (serializeTel ev)⟩] km with
    | error e => simp only [issue, hmi, hmx] at h1; simp at h1
    | ok p2 =>
      obtain ⟨x0, k0⟩ := p2
      simp only [issue, hmi, hmx] at h1
      have hempty : st0.tel.vcs.filter
          (fun ve => decide (ve.event.pre = Ident.selfAddr (blake3 msg))) = [] := by
        simp only [makeIssuanceEvent] at hmi
        split at hmi
        · next hcond => exact List.isEmpty_iff.mp (by simpa [getTel] using hcond)
        · exact Except.noConfusion hmi
      have hev := makeIssuanceEvent_ok hmi
      obtain ⟨hx0, hk0⟩ := makeIxn_ok hmx
      rw [Prod.mk.injEq] at h1
      obtain ⟨hst1, hsig⟩ := h1
      subst hev
      subst hx0
      subst hk0
      have hsig2 := Except.ok.inj hsig
      subst hsig2
      subst hst1
      simp only [verify, getVcState, getTel, telProcess, List.filter_append,
        List.filter, decide_True, hempty, List.nil_append, updState, List.foldl,
        getPubKey, List.getLast?, List.getLast, hiss, getStateForSeal,
        eq_self_iff_true, if_true, List.getElem?_concat_length,
        serializeIxnMsg, sourceSealOfMsg, List.length_append, List.length_cons,
        List.length_nil, Nat.reduceAdd,
        take_len_snoc, currentKeys_snoc_ixn, hkeys,
        Option.map, IdState.publicKeys, checkKeys, primVerify, kmSign,
        beq_self_eq_true, Bool.and_self]

/-- C6 witness: the concrete scenario's init + issue + verify run. -/
theorem c6_witness :
    currentKeys stInit.kerl.log = some [kmA.curKey] ∧
    stInit.tel.issuer = some stInit.kerl.pre ∧
    issue stInit msgA kmA = (stIss, .ok sigA) ∧
    verify stIss msgA sigA = some (.ok true) :=
  ⟨by decide, by decide, by decide,
   c6_issue_then_verify kmA msgA stInit stIss sigA (by decide) (by decide) (by decide)⟩

/-- C7: a key rotation performed after issuance does not disturb
verification: the resolved key set depends only on the (sn, digest) source
seal stored in the credential's TEL log — the anchored prefix of the KEL —
not on the rotated current state, so the pre-rotation signature still
verifies Ok(true). -/
theorem c7_rotation_invariant (km km2 : KeyMgr) (msg : Bytes)
    (st0 st1 st2 : Controller) (sig : Bytes)
    (hkeys : currentKeys st0.kerl.log = some [km.curKey])
    (hiss : st0.tel.issuer = some st0.kerl.pre)
    (h1 : issue st0 msg km = (st1, .ok sig))
    (h2 : rotateC st1 km2 = (st2, .ok ())) :
    verify st2 msg sig = some (.ok true) := by
  cases hmi : makeIssuanceEvent st0.tel msg with
  | error e => simp only [issue, hmi] at h1; simp at h1
  | ok ev =>
    cases hmx : makeIxnWithSeal st0.kerl [⟨ev.pre, ev.sn, blake3 (serializeTel ev)⟩] km with
    | error e => simp only [issue, hmi, hmx] at h1; simp at h1
    | ok p2 =>
      obtain ⟨x0, k0⟩ := p2
      simp only [issue, hmi, hmx] at h1
      have hempty : st0.tel.vcs.filter
          (fun ve => decide (ve.event.pre = Ident.selfAddr (blake3 msg))) = [] := by
        simp only [makeIssuanceEvent] at hmi
        split at hmi
        · next hcond => exact List.isEmpty_iff.mp (by simpa [getTel] using hcond)
        · exact Except.noConfusion hmi
      have hev := makeIssuanceEvent_ok hmi
      obtain ⟨hx0, hk0⟩ := makeIxn_ok hmx
      rw [Prod.mk.injEq] at h1
      obtain ⟨hst1, hsig⟩ := h1
      subst hev
      subst hx0
      subst hk0
      have hsig2 := Except.ok.inj hsig
      subst hsig2
      subst hst1
      simp only [rotateC, kerlRotate, currentKeys_snoc_ixn, hkeys,
        Prod.mk.injEq] at h2
      obtain ⟨hst2, -⟩ := h2
      subst hst2
      simp only [verify, getVcState, getTel, telProcess, List.filter_append,
        List.filter, decide_True, hempty, List.nil_append, updState, List.foldl,
        getPubKey, List.getLast?, List.getLast, hiss, getStateForSeal,
        eq_self_iff_true, if_true, getElem_snoc2,
        serializeIxnMsg, sourceSealOfMsg, List.length_append, List.length_cons,
        List.length_nil, Nat.reduceAdd,
        take_len_snoc2, currentKeys_snoc_ixn, hkeys,
        Option.map, IdState.publicKeys, checkKeys, primVerify, kmSign,
        beq_self_eq_true, Bool.and_self]

/-- C7 witness: the concrete scenario's init + issue + rotate + verify
run, rotating from key 1 to key 2. -/
theorem c7_witness :
    currentKeys stInit.kerl.log = some [kmA.curKey] ∧
    stInit.tel.issuer = some stInit.kerl.pre ∧
    issue stInit msgA kmA = (stIss, .ok sigA) ∧
    rotateC stIss kmB = (stRot, .ok ()) ∧
    verify stRot msgA sigA = some (.ok true) :=
  ⟨by decide, by decide, by decide, by decide,
   c7_rotation_invariant kmA kmB msgA stInit stIss stRot sigA
     (by decide) (by decide) (by decide) (by decide)⟩

end VCIssuer
